import Mathlib

/-!
Verification development for the resume-analyzer scoring core.

This file gives a shallow embedding of the Python modules
`src/sections.py`, `src/skills.py`, `src/hybrid_scoring.py`,
`src/impact.py` (the part reached from `calculate_impact_score`) and
`src/recommendations.py`, and proves the frozen claims about them.

Modelling conventions:
- Python floats are modelled as exact rationals (`ℚ`); decimal literals
  such as `0.4` denote the exact rational 2/5.
- Python strings are modelled as `String` / `List Char`; positions are
  codepoint indices, and `str.lower()` is modelled by `Char.toLower`
  per character (exact on the ASCII inputs the heuristics target).
- Python dicts that preserve insertion order are modelled as
  association lists together with `dictInsert`, which replaces an
  existing binding in place (Python dict assignment semantics).
- External collaborators (the sentence-embedding model behind
  `semantic.py`, and sklearn's TF-IDF similarity) are modelled as
  explicit parameters carrying their outcome, mirroring the narrow
  interfaces through which the core consumes them.
-/

/-! ## Basic Python string helpers -/

/-- Python `\s` (whitespace) characters, as used by `str.strip()` and the
regex escapes in `sections.py`. -/
def pyIsSpace (c : Char) : Bool :=
  c = ' ' || c = '\t' || c = '\n' || c = '\r' || c = '\x0b' || c = '\x0c'

/-- Python `str.strip()` on a character list. -/
def pyStrip (l : List Char) : List Char :=
  ((l.dropWhile pyIsSpace).reverse.dropWhile pyIsSpace).reverse

/-- Python `str.strip()` on a `String`. -/
def pyStripStr (s : String) : String :=
  ⟨pyStrip s.data⟩

/-- Python `str.lower()` on a character list (ASCII-faithful). -/
def lowerL (l : List Char) : List Char :=
  l.map Char.toLower

/-- Python `str.lower()` from a `String` to a character list. -/
def lowerStr (s : String) : List Char :=
  lowerL s.data

/-- Helper for Python `str.title()`: the boolean argument records whether
the previous character was a letter. -/
def pyTitleGo : Bool → List Char → List Char
  | _, [] => []
  | prevAlpha, c :: rest =>
      (if c.isAlpha then (if prevAlpha then c.toLower else c.toUpper) else c)
        :: pyTitleGo c.isAlpha rest

/-- Python `str.title()` (letters starting a run are uppercased, the rest
lowercased). -/
def pyTitleStr (s : String) : String :=
  ⟨pyTitleGo false s.data⟩

/-- Python `skill_id.replace("_", " ")`. -/
def underscoreToSpace (s : String) : String :=
  ⟨s.data.map (fun c => if c = '_' then ' ' else c)⟩

/-- Python slice `t[a:b]` on a character list. -/
def extractL (t : List Char) (a b : Nat) : List Char :=
  (t.drop a).take (b - a)

/-! ## sections.py : data model -/

/-- `SectionType` enum of `sections.py`. -/
inductive SectionType where
  | summary | skills | experience | projects | education
  | certifications | awards | publications | contact | other
deriving DecidableEq

/-- The `.value` of each `SectionType` member. -/
def sectionTypeValue : SectionType → String
  | .summary => "summary"
  | .skills => "skills"
  | .experience => "experience"
  | .projects => "projects"
  | .education => "education"
  | .certifications => "certifications"
  | .awards => "awards"
  | .publications => "publications"
  | .contact => "contact"
  | .other => "other"

/-- `SECTION_WEIGHTS` table of `sections.py` (total on the enum, so the
`.get(..., 0.3)` default never fires). -/
def SECTION_WEIGHTS : SectionType → ℚ
  | .experience => 1.0
  | .projects => 0.9
  | .certifications => 0.8
  | .skills => 0.5
  | .education => 0.6
  | .summary => 0.4
  | .awards => 0.7
  | .publications => 0.8
  | .other => 0.3
  | .contact => 0.0

/-- `Section` dataclass of `sections.py`; the `weight` field is set in
`__post_init__` purely from `section_type`, so it is modelled as the
derived function `Section.weight` below. -/
structure Section where
  section_type : SectionType
  heading : String
  content : String
  start_pos : Nat
  end_pos : Nat
deriving DecidableEq

/-- `Section.weight`, as assigned by `__post_init__`. -/
def Section.weight (s : Section) : ℚ :=
  SECTION_WEIGHTS s.section_type

/-- `ParsedResume` dataclass of `sections.py`. -/
structure ParsedResume where
  original_text : String
  sections : List Section
deriving DecidableEq

/-- `ParsedResume.get_combined_text(*section_types)`. -/
def getCombinedText (pr : ParsedResume) (types : List SectionType) : String :=
  String.intercalate "\n"
    ((pr.sections.filter (fun s => types.contains s.section_type)).map
      (fun s => s.content))

/-! ## skills.py : word-boundary matching

`find_evidence_in_section` and `detect_skill_in_text` match an alias with
the regex `\b` + `re.escape(alias)` + `\b` against lowered text.  The
alias is escaped, hence a literal; we model `\b` exactly: a boundary
holds at a position iff exactly one of the adjacent characters is a word
character (`[A-Za-z0-9_]`), with the outside of the string non-word. -/

/-- Python regex `\w` on ASCII. -/
def isWordChar (c : Char) : Bool :=
  c.isAlphanum || c = '_'

/-- Whether the character at index `i` exists and is a word character. -/
def wordCharAt (t : List Char) (i : Nat) : Bool :=
  match t.drop i with
  | c :: _ => isWordChar c
  | [] => false

/-- Python regex `\b` at position `p` of `t`. -/
def boundaryAt (t : List Char) (p : Nat) : Bool :=
  (if p = 0 then false else wordCharAt t (p - 1)) != wordCharAt t p

/-- The pattern `\b alias \b` matches `t` at position `p`. -/
def exactMatchAt (t a : List Char) (p : Nat) : Bool :=
  decide ((t.drop p).take a.length = a) && boundaryAt t p
    && boundaryAt t (p + a.length)

/-- `re.finditer` for the pattern `\b alias \b`: all non-overlapping match
start positions, scanning left to right and resuming at each match end.
The first argument is fuel for structural recursion; every step advances
the position by at least one, so fuel `t.length + 1` (as supplied by
`scanExact`) never runs out before the scan passes the end of `t`. -/
def scanExactFrom (t a : List Char) : Nat → Nat → List Nat
  | 0, _ => []
  | fuel + 1, p =>
      if t.length < p then []
      else if exactMatchAt t a p then
        p :: scanExactFrom t a fuel (p + max a.length 1)
      else
        scanExactFrom t a fuel (p + 1)

/-- All match start positions of `\b alias \b` in `t`. -/
def scanExact (t a : List Char) : List Nat :=
  scanExactFrom t a (t.length + 1) 0

/-- `re.search` for `\b alias \b`: does any match exist? -/
def hasExactMatch (t a : List Char) : Bool :=
  (List.range (t.length + 1)).any (fun p => exactMatchAt t a p)

/-! ## skills.py : fuzzy similarity (rapidfuzz)

`detect_skill_in_text` uses `rapidfuzz.fuzz.partial_ratio`.  We model it
from its documented semantics: the normalized indel similarity
(`fuzz.ratio`, i.e. `200·lcs/(|a|+|b|)`) of the shorter string against
its best-aligned window in the longer string, scaled to 0..100. -/

/-- Length of a longest common subsequence (first argument is fuel for
structural recursion; each step shortens the combined length, so fuel
`a.length + b.length` is always sufficient). -/
def lcsLen : Nat → List Char → List Char → Nat
  | 0, _, _ => 0
  | _ + 1, [], _ => 0
  | _ + 1, _ :: _, [] => 0
  | fuel + 1, x :: xs, y :: ys =>
      if x = y then lcsLen fuel xs ys + 1
      else max (lcsLen fuel (x :: xs) ys) (lcsLen fuel xs (y :: ys))

/-- rapidfuzz `fuzz.ratio` (normalized indel similarity, 0..100). -/
def fuzzScore100 (a b : List Char) : ℚ :=
  if a.length + b.length = 0 then 100
  else
    200 * (lcsLen (a.length + b.length) a b : ℚ)
      / ((a.length : ℚ) + (b.length : ℚ))

/-- rapidfuzz `fuzz.partial_ratio`: best `fuzzScore100` of the shorter
string against any window of its own length in the longer string. -/
def fuzzBestWindow (s1 s2 : List Char) : ℚ :=
  let p := if s1.length ≤ s2.length then (s1, s2) else (s2, s1)
  let a := p.1
  let b := p.2
  ((List.range (b.length - a.length + 1)).map
      (fun i => (b.drop i).take a.length)).foldl
    (fun acc w => max acc (fuzzScore100 a w)) 0

/-! ## skills.py : data model -/

/-- `SkillPriority` enum. -/
inductive SkillPriority where
  | must_have | nice_to_have
deriving DecidableEq

/-- `DetectionConfidence` enum (`HIGH` exact, `MEDIUM` fuzzy, `LOW` weak). -/
inductive DetectionConfidence where
  | high | medium | low
deriving DecidableEq

/-- `SkillEvidence` dataclass. -/
structure SkillEvidence where
  section_type : SectionType
  section_name : String
  snippet : String
  matched_alias : String
  position : Nat
deriving DecidableEq

/-- `SkillEvidence.weight` property (`SECTION_WEIGHTS.get(..., 0.3)`; the
table is total, so the default never fires). -/
def SkillEvidence.weight (e : SkillEvidence) : ℚ :=
  SECTION_WEIGHTS e.section_type

/-- `DetectedSkill` dataclass. -/
structure DetectedSkill where
  skill_id : String
  skill_name : String
  priority : SkillPriority
  weight : ℚ
  category : String
  confidence : DetectionConfidence
  evidence_list : List SkillEvidence
deriving DecidableEq

/-- Sections counted as "proven" by `DetectedSkill.is_proven`. -/
def provenSectionTypes : List SectionType :=
  [.experience, .projects, .certifications]

/-- Sections counted as "listed" by `DetectedSkill.is_only_listed`. -/
def listedSectionTypes : List SectionType :=
  [.skills, .summary]

/-- `DetectedSkill.is_proven`: some evidence lies in
Experience/Projects/Certifications. -/
def DetectedSkill.is_proven (d : DetectedSkill) : Bool :=
  d.evidence_list.any (fun e => provenSectionTypes.contains e.section_type)

/-- `DetectedSkill.is_only_listed`: there is evidence, and all of it lies
in Skills/Summary. -/
def DetectedSkill.is_only_listed (d : DetectedSkill) : Bool :=
  if d.evidence_list.isEmpty then false
  else d.evidence_list.all (fun e => listedSectionTypes.contains e.section_type)

/-- `SkillAnalysisResult` dataclass.  `detected_skills` is a Python dict
keyed by skill id, modelled as an insertion-ordered association list. -/
structure SkillAnalysisResult where
  detected_skills : List (String × DetectedSkill)
  must_have_matched : List String
  must_have_missing : List String
  nice_to_have_matched : List String
  nice_to_have_missing : List String
deriving DecidableEq

/-- `SkillAnalysisResult.must_have_coverage` property. -/
def SkillAnalysisResult.must_have_coverage (sa : SkillAnalysisResult) : ℚ :=
  let total := sa.must_have_matched.length + sa.must_have_missing.length
  if total = 0 then 0.0 else (sa.must_have_matched.length : ℚ) / (total : ℚ)

/-- `SkillAnalysisResult.nice_to_have_coverage` property. -/
def SkillAnalysisResult.nice_to_have_coverage (sa : SkillAnalysisResult) : ℚ :=
  let total := sa.nice_to_have_matched.length + sa.nice_to_have_missing.length
  if total = 0 then 0.0
  else (sa.nice_to_have_matched.length : ℚ) / (total : ℚ)

/-- `SkillAnalysisResult.proven_skills_ratio` property (named with `frac`
here to keep identifier hygiene; the source calls it
`proven_skills_ratio`). -/
def SkillAnalysisResult.proven_skills_frac (sa : SkillAnalysisResult) : ℚ :=
  if sa.detected_skills.isEmpty then 0.0
  else
    ((sa.detected_skills.map Prod.snd).countP
        (fun s => DetectedSkill.is_proven s) : ℚ)
      / (sa.detected_skills.length : ℚ)

/-! ## skills.py : detection functions -/

/-- `find_evidence_in_section(section, aliases)`: for each alias in order,
every non-overlapping whole-word occurrence in the lowered section text
becomes one `SkillEvidence` with a ±50-character stripped snippet. -/
def find_evidence_in_section (sec : Section) (aliases : List String) :
    List SkillEvidence :=
  let text_lower := lowerStr sec.content
  aliases.flatMap (fun al =>
    let alias_lower := lowerStr al
    (scanExact text_lower alias_lower).map (fun p =>
      let start := p - 50
      let stop :=
        min sec.content.data.length (p + alias_lower.length + 50)
      { section_type := sec.section_type
        section_name :=
          if sec.heading ≠ "" then sec.heading
          else sectionTypeValue sec.section_type
        snippet :=
          "..." ++ pyStripStr ⟨extractL sec.content.data start stop⟩
            ++ "..."
        matched_alias := al
        position := p }))

/-- `detect_skill_in_text(text, aliases, fuzzy_threshold)`: exact
whole-word pass over all aliases first (confidence `HIGH`), then a fuzzy
pass over aliases of length ≥ 4 (confidence `MEDIUM`), else `LOW`.  The
Python default `fuzzy_threshold=85` is passed explicitly by callers
here. -/
def detect_skill_in_text (text : String) (aliases : List String)
    (fuzzy_threshold : ℚ) : Option String × DetectionConfidence :=
  let text_lower := lowerStr text
  match aliases.find? (fun a => hasExactMatch text_lower (lowerStr a)) with
  | some a => (some a, .high)
  | none =>
      match aliases.find? (fun a =>
          4 ≤ a.length
            && fuzzy_threshold ≤ fuzzBestWindow (lowerStr a) text_lower) with
      | some a => (some a, .medium)
      | none => (none, .low)

/-- The confidence-update statement of `analyze_skills_sectioned`:
`HIGH` always wins; `MEDIUM` upgrades anything but `HIGH`. -/
def updateConfidence (best conf : DetectionConfidence) :
    DetectionConfidence :=
  if conf = .high then .high
  else if conf = .medium && best ≠ .high then .medium
  else best

/-- One iteration of the per-skill section loop of
`analyze_skills_sectioned`: extend the evidence and update the best
confidence only when the section yields evidence. -/
def collectStep (aliases : List String)
    (acc : List SkillEvidence × DetectionConfidence) (sec : Section) :
    List SkillEvidence × DetectionConfidence :=
  let evidence := find_evidence_in_section sec aliases
  if evidence = [] then acc
  else
    (acc.1 ++ evidence,
      updateConfidence acc.2 (detect_skill_in_text sec.content aliases 85).2)

/-- The full per-skill section loop (`all_evidence`, `best_confidence`). -/
def collectSkill (sections : List Section) (aliases : List String) :
    List SkillEvidence × DetectionConfidence :=
  sections.foldl (collectStep aliases) ([], .low)

/-- Taxonomy entry for one skill (`skill_info` dict with keys `aliases`,
`weight`, `category`; the `.get` defaults of the source concern absent
keys of the input dict, which the structure always carries). -/
structure SkillInfo where
  aliases : List String
  weight : ℚ
  category : String
deriving DecidableEq

/-- Python dict assignment `d[k] = v` on an insertion-ordered association
list: replaces in place when the key exists, else appends. -/
def dictInsert {β : Type} : List (String × β) → String → β → List (String × β)
  | [], k, v => [(k, v)]
  | (k', v') :: rest, k, v =>
      if k' = k then (k, v) :: rest else (k', v') :: dictInsert rest k v

/-- The per-tier loop of `analyze_skills_sectioned`: processes the skills
of one priority tier in declaration order, threading the detected-skills
dict and appending each skill id to the matched or the missing list. -/
def processSkills (sections : List Section) (priority : SkillPriority) :
    List (String × SkillInfo) →
      List (String × DetectedSkill) × List String × List String →
      List (String × DetectedSkill) × List String × List String
  | [], st => st
  | (skill_id, info) :: rest, (dict, matched, missing) =>
      let c := collectSkill sections info.aliases
      if c.1 = [] then
        processSkills sections priority rest
          (dict, matched, missing ++ [skill_id])
      else
        processSkills sections priority rest
          (dictInsert dict skill_id
            { skill_id := skill_id
              skill_name := pyTitleStr (underscoreToSpace skill_id)
              priority := priority
              weight := info.weight
              category := info.category
              confidence := c.2
              evidence_list := c.1 },
            matched ++ [skill_id], missing)

/-- A role taxonomy (`role_taxonomy` dict with `title`, `must_have`,
`nice_to_have`); the tiers are insertion-ordered maps of skill id to
`SkillInfo`. -/
structure RoleTaxonomy where
  title : String
  must_have : List (String × SkillInfo)
  nice_to_have : List (String × SkillInfo)
deriving DecidableEq

/-- `analyze_skills_sectioned(parsed_resume, role_taxonomy)`. -/
def analyze_skills_sectioned (pr : ParsedResume) (tax : RoleTaxonomy) :
    SkillAnalysisResult :=
  let r1 := processSkills pr.sections .must_have tax.must_have ([], [], [])
  let r2 :=
    processSkills pr.sections .nice_to_have tax.nice_to_have (r1.1, [], [])
  { detected_skills := r2.1
    must_have_matched := r1.2.1
    must_have_missing := r1.2.2
    nice_to_have_matched := r2.2.1
    nice_to_have_missing := r2.2.2 }

/-! ## sections.py : heading recognition

`_create_section_pattern` compiles the alternation of every entry of
`SECTION_PATTERNS` into
`^\s*[#\*\-•]?\s*(?:…)\s*[:\-–—]?\s*$` with `IGNORECASE | MULTILINE`.
We embed the regexes as terms of a small regular-expression language and
match with Brzozowski derivatives.  `IGNORECASE` is realized by lowering
the text (the patterns are already lowercase), `MULTILINE` by the
line-start / line-end side conditions of `findHeadingMatches`. -/

/-- Regular expressions: empty language, empty word, character class
(match any listed character), concatenation, alternation, Kleene star. -/
inductive RE where
  | nul
  | eps
  | cls (cs : List Char)
  | cat (a b : RE)
  | alt (a b : RE)
  | star (a : RE)
deriving DecidableEq

/-- Smart alternation (prunes the empty language). -/
def RE.mkAlt : RE → RE → RE
  | .nul, b => b
  | a, .nul => a
  | a, b => .alt a b

/-- Smart concatenation (prunes the empty language and empty words). -/
def RE.mkCat : RE → RE → RE
  | .nul, _ => .nul
  | _, .nul => .nul
  | .eps, b => b
  | a, .eps => a
  | a, b => .cat a b

/-- Does the regex accept the empty word? -/
def RE.nullable : RE → Bool
  | .nul => false
  | .eps => true
  | .cls _ => false
  | .cat a b => a.nullable && b.nullable
  | .alt a b => a.nullable || b.nullable
  | .star _ => true

/-- Brzozowski derivative with respect to one character. -/
def RE.derivC : RE → Char → RE
  | .nul, _ => .nul
  | .eps, _ => .nul
  | .cls cs, c => if cs.contains c then .eps else .nul
  | .cat a b, c =>
      if a.nullable then RE.mkAlt (RE.mkCat (a.derivC c) b) (b.derivC c)
      else RE.mkCat (a.derivC c) b
  | .alt a b, c => RE.mkAlt (a.derivC c) (b.derivC c)
  | .star a, c => RE.mkCat (a.derivC c) (.star a)

/-- Full match of a regex against a word. -/
def reMatches (r : RE) (s : List Char) : Bool :=
  (s.foldl RE.derivC r).nullable

/-- Literal string regex. -/
def rstr (s : String) : RE :=
  s.data.foldr (fun c r => RE.cat (RE.cls [c]) r) RE.eps

/-- `r?`. -/
def ropt (r : RE) : RE :=
  RE.alt r RE.eps

/-- Alternation of a list of regexes. -/
def ralt (l : List RE) : RE :=
  l.foldr RE.alt RE.nul

/-- `\s` character class. -/
def reWS : RE :=
  RE.cls [' ', '\t', '\n', '\r', '\x0b', '\x0c']

/-- `\s*`. -/
def reWSStar : RE :=
  RE.star reWS

/-- `\s+`. -/
def reWSPlus : RE :=
  RE.cat reWS (RE.star reWS)

/-- `SECTION_PATTERNS[SUMMARY]`. -/
def patternsSummary : List RE :=
  [ RE.cat (ropt (RE.cat (rstr "professional") reWSPlus)) (rstr "summary"),
    RE.cat (ropt (RE.cat (rstr "career") reWSPlus)) (rstr "objective"),
    rstr "profile",
    RE.cat (rstr "about") (RE.cat reWSStar (ropt (rstr "me"))),
    RE.cat (rstr "executive") (RE.cat reWSPlus (rstr "summary")),
    RE.cat (rstr "personal") (RE.cat reWSPlus (rstr "statement")) ]

/-- `SECTION_PATTERNS[SKILLS]`. -/
def patternsSkills : List RE :=
  [ RE.cat (ropt (RE.cat (rstr "technical") reWSPlus)) (rstr "skills"),
    rstr "technologies",
    rstr "competencies",
    rstr "expertise",
    rstr "proficiencies",
    RE.cat (rstr "tool")
      (RE.cat (ropt (rstr "s"))
        (RE.cat reWSStar
          (RE.cat (ropt (RE.alt (rstr "&") (rstr "and")))
            (RE.cat reWSStar (rstr "technologies"))))),
    RE.cat (rstr "technical") (RE.cat reWSPlus (rstr "proficiency")),
    RE.cat (rstr "core") (RE.cat reWSPlus (rstr "competencies")) ]

/-- `SECTION_PATTERNS[EXPERIENCE]`. -/
def patternsExperience : List RE :=
  [ RE.cat (ralt [rstr "work", rstr "professional", rstr "employment"])
      (RE.cat reWSStar (ropt (ralt [rstr "experience", rstr "history"]))),
    rstr "experience",
    RE.cat (rstr "career") (RE.cat reWSPlus (rstr "history")),
    RE.cat (rstr "work") (RE.cat reWSPlus (rstr "history")),
    RE.cat (rstr "professional") (RE.cat reWSPlus (rstr "background")),
    RE.cat (rstr "position")
      (RE.cat (ropt (rstr "s")) (RE.cat reWSPlus (rstr "held"))) ]

/-- `SECTION_PATTERNS[PROJECTS]`. -/
def patternsProjects : List RE :=
  [ RE.cat (rstr "project") (ropt (rstr "s")),
    RE.cat (ralt [rstr "personal", rstr "academic", rstr "professional"])
      (RE.cat reWSPlus (RE.cat (rstr "project") (ropt (rstr "s")))),
    rstr "portfolio",
    RE.cat (rstr "key")
      (RE.cat reWSPlus (RE.cat (rstr "project") (ropt (rstr "s")))),
    RE.cat (rstr "selected")
      (RE.cat reWSPlus (RE.cat (rstr "project") (ropt (rstr "s")))) ]

/-- `SECTION_PATTERNS[EDUCATION]`. -/
def patternsEducation : List RE :=
  [ RE.cat (rstr "education")
      (ropt (RE.cat (rstr "al") (RE.cat reWSPlus (rstr "background")))),
    RE.cat (rstr "academic")
      (RE.cat reWSPlus
        (ralt [rstr "background",
               RE.cat (rstr "qualification") (ropt (rstr "s"))])),
    RE.cat (rstr "qualification") (ropt (rstr "s")),
    RE.cat (rstr "degree") (ropt (rstr "s")),
    RE.cat (rstr "academic") (RE.cat reWSPlus (rstr "history")) ]

/-- `SECTION_PATTERNS[CERTIFICATIONS]`. -/
def patternsCertifications : List RE :=
  [ RE.cat (rstr "certification") (ropt (rstr "s")),
    RE.cat (rstr "license")
      (RE.cat (ropt (rstr "s"))
        (RE.cat reWSStar
          (RE.cat (ropt (RE.alt (rstr "&") (rstr "and")))
            (RE.cat reWSStar
              (RE.cat (rstr "certification") (ropt (rstr "s"))))))),
    RE.cat (rstr "professional")
      (RE.cat reWSPlus (RE.cat (rstr "certification") (ropt (rstr "s")))),
    RE.cat (rstr "credential") (ropt (rstr "s")),
    RE.cat (rstr "accreditation") (ropt (rstr "s")) ]

/-- `SECTION_PATTERNS[AWARDS]`. -/
def patternsAwards : List RE :=
  [ RE.cat (rstr "award")
      (RE.cat (ropt (rstr "s"))
        (RE.cat reWSStar
          (RE.cat (ropt (RE.alt (rstr "&") (rstr "and")))
            (RE.cat reWSStar
              (ropt (ralt
                [RE.cat (rstr "honor") (ropt (rstr "s")),
                 RE.cat (rstr "achievement") (ropt (rstr "s"))])))))),
    RE.cat (rstr "honor")
      (RE.cat (ropt (rstr "s"))
        (RE.cat reWSStar
          (RE.cat (ropt (RE.alt (rstr "&") (rstr "and")))
            (RE.cat reWSStar
              (RE.cat (rstr "award") (ropt (rstr "s"))))))),
    RE.cat (rstr "achievement") (ropt (rstr "s")),
    rstr "recognition",
    RE.cat (rstr "accomplishment") (ropt (rstr "s")) ]

/-- `SECTION_PATTERNS[PUBLICATIONS]`. -/
def patternsPublications : List RE :=
  [ RE.cat (rstr "publication") (ropt (rstr "s")),
    RE.cat (rstr "paper") (ropt (rstr "s")),
    RE.cat (rstr "research")
      (ropt (RE.cat reWSPlus (RE.cat (rstr "paper") (ropt (rstr "s"))))),
    RE.cat (rstr "article") (ropt (rstr "s")) ]

/-- `SECTION_PATTERNS[CONTACT]`. -/
def patternsContact : List RE :=
  [ RE.cat (rstr "contact")
      (ropt (RE.cat reWSPlus
        (ralt [RE.cat (rstr "info") (ropt (rstr "rmation")),
               RE.cat (rstr "detail") (ropt (rstr "s"))]))),
    RE.cat (rstr "personal")
      (RE.cat reWSPlus
        (ralt [RE.cat (rstr "info") (ropt (rstr "rmation")),
               RE.cat (rstr "detail") (ropt (rstr "s"))])) ]

/-- `SECTION_PATTERNS` in declaration order (dict iteration order). -/
def SECTION_PATTERNS : List (SectionType × List RE) :=
  [ (.summary, patternsSummary),
    (.skills, patternsSkills),
    (.experience, patternsExperience),
    (.projects, patternsProjects),
    (.education, patternsEducation),
    (.certifications, patternsCertifications),
    (.awards, patternsAwards),
    (.publications, patternsPublications),
    (.contact, patternsContact) ]

/-- The body of `_create_section_pattern()`'s pattern, i.e.
`\s*[#\*\-•]?\s*(?:…all patterns…)\s*[:\-–—]?\s*` (the `^`/`$` anchors
are the side conditions below). -/
def headingBodyRE : RE :=
  RE.cat reWSStar
    (RE.cat (ropt (RE.cls ['#', '*', '-', '•']))
      (RE.cat reWSStar
        (RE.cat (ralt (SECTION_PATTERNS.flatMap Prod.snd))
          (RE.cat reWSStar
            (RE.cat (ropt (RE.cls [':', '-', '–', '—'])) reWSStar)))))

/-- `re.MULTILINE` `^`: start of text or just after a newline. -/
def lineStartAt (t : List Char) (p : Nat) : Bool :=
  p = 0 ||
    (match t.drop (p - 1) with
     | c :: _ => c = '\n'
     | [] => false)

/-- `re.MULTILINE` `$`: end of text or just before a newline. -/
def lineEndAt (t : List Char) (p : Nat) : Bool :=
  p = t.length ||
    (match t.drop p with
     | c :: _ => c = '\n'
     | [] => false)

/-- End position of the heading match starting at `p`, if any: the
largest `e` such that the (lowered) slice `t[p:e]` matches the pattern
body and `$` holds at `e` (the pattern's quantifiers are greedy, so the
match extends as far as `$` allows). -/
def headingMatchEnd (t : List Char) (p : Nat) : Option Nat :=
  ((List.range (t.length + 1)).filter (fun e =>
      p ≤ e && reMatches headingBodyRE (lowerL (extractL t p e))
        && lineEndAt t e)).max?

/-- `finditer` scan of the compiled section pattern: successive
non-overlapping `(start, end)` spans of heading matches (first argument
is fuel for structural recursion; every step advances the position, so
fuel `t.length + 1` is always sufficient). -/
def findHeadingFrom (t : List Char) : Nat → Nat → List (Nat × Nat)
  | 0, _ => []
  | fuel + 1, p =>
      if t.length < p then []
      else if lineStartAt t p then
        match headingMatchEnd t p with
        | some e => (p, e) :: findHeadingFrom t fuel (max e (p + 1))
        | none => findHeadingFrom t fuel (p + 1)
      else
        findHeadingFrom t fuel (p + 1)

/-- All heading matches of `section_pattern.finditer(text)`. -/
def findHeadingMatches (t : List Char) : List (Nat × Nat) :=
  findHeadingFrom t (t.length + 1) 0

/-- `_identify_section_type(heading)`: lower and strip the heading,
remove leading `[#\*\-•:\s]+` and trailing `[:\-–—\s]+` decoration, then
return the first section type (in declaration order) one of whose
patterns matches the whole cleaned heading; `Other` if none. -/
def identifySectionType (heading : String) : SectionType :=
  let heading_lower := pyStrip (lowerStr heading)
  let heading_clean :=
    ((heading_lower.dropWhile (fun c =>
          c = '#' || c = '*' || c = '-' || c = '•' || c = ':' || pyIsSpace c))
        |>.reverse.dropWhile (fun c =>
          c = ':' || c = '-' || c = '–' || c = '—' || pyIsSpace c)).reverse
  match SECTION_PATTERNS.find? (fun tp =>
      tp.2.any (fun r => reMatches r heading_clean)) with
  | some tp => tp.1
  | none => .other

/-- The loop of `parse_resume` that turns heading matches into sections:
content for match `i` runs from its end to the start of match `i+1` (or
the end of text), and sections whose stripped content is empty are
dropped. -/
def buildSections (t : List Char) : List (Nat × Nat) → List Section
  | [] => []
  | (s, e) :: rest =>
      let endPos :=
        match rest with
        | [] => t.length
        | (s', _) :: _ => s'
      let heading := pyStripStr ⟨extractL t s e⟩
      let content := pyStripStr ⟨extractL t e endPos⟩
      (if content ≠ "" then
        [{ section_type := identifySectionType heading
           heading := heading
           content := content
           start_pos := e
           end_pos := endPos }]
      else []) ++ buildSections t rest

/-- `parse_resume(text)`.  With no heading match the whole text becomes a
single `Other` section; otherwise sections are built between headings,
and text before the first heading becomes a leading `Contact` section
when the first heading starts after position 50 and the leading text is
nonempty once stripped. -/
def parse_resume (text : String) : ParsedResume :=
  let t := text.data
  match findHeadingMatches t with
  | [] =>
      { original_text := text
        sections :=
          [{ section_type := .other
             heading := ""
             content := text
             start_pos := 0
             end_pos := text.length }] }
  | (s0, e0) :: rest =>
      let sections := buildSections t ((s0, e0) :: rest)
      let sections :=
        if 50 < s0 then
          let pre_content := pyStripStr ⟨extractL t 0 s0⟩
          if pre_content ≠ "" then
            { section_type := SectionType.contact
              heading := ""
              content := pre_content
              start_pos := 0
              end_pos := s0 } :: sections
          else sections
        else sections
      { original_text := text, sections := sections }

/-- The `if parsed_resume is None: parsed_resume = parse_resume(...)`
idiom shared by `compute_hybrid_score`, `calculate_role_alignment` and
`recommend_roles`. -/
def resolveParsed (resume_text : String)
    (parsed_resume : Option ParsedResume) : ParsedResume :=
  match parsed_resume with
  | some p => p
  | none => parse_resume resume_text

/-! ## hybrid_scoring.py : data model -/

/-- `ScoreComponent` dataclass. -/
structure ScoreComponent where
  name : String
  score : ℚ
  weight : ℚ
  details : String
  suggestions : List String
deriving DecidableEq

/-- `ScoreComponent.weighted_score` property. -/
def ScoreComponent.weighted_score (c : ScoreComponent) : ℚ :=
  c.score * c.weight

/-- `SemanticMatch` dataclass of `semantic.py` (its numeric fields are
produced by the external embedding model; see `SemanticCollab`). -/
structure SemanticMatch where
  overall_similarity : ℚ
  section_similarities : List (String × ℚ)
  best_matching_sections : List (String × ℚ)
  embedding_computed : Bool
deriving DecidableEq

instance {ε α : Type} [DecidableEq ε] [DecidableEq α] :
    DecidableEq (Except ε α) := fun a b =>
  match a, b with
  | .ok x, .ok y =>
      if h : x = y then isTrue (by rw [h])
      else isFalse (fun hh => h (by injection hh))
  | .ok _, .error _ => isFalse (fun hh => by injection hh)
  | .error _, .ok _ => isFalse (fun hh => by injection hh)
  | .error x, .error y =>
      if h : x = y then isTrue (by rw [h])
      else isFalse (fun hh => h (by injection hh))

/-- Outcome of the external semantic-similarity collaborators consumed by
`calculate_semantic_score`: the result of
`semantic_similarity_sectioned(...)` (or the exception it raises), the
result of `semantic_similarity(...)` for the unsectioned branch, and the
`tfidf_similarity` fallback value.  The embedding model itself is out of
scope, so these carry whatever the collaborator returned. -/
structure SemanticCollab where
  sectioned : Except Unit SemanticMatch
  plain : Except Unit ℚ
  tfidf : ℚ
deriving DecidableEq

/-- `calculate_semantic_score(resume_text, jd_text, parsed_resume)`:
section-aware score when a parsed resume is available, plain similarity
otherwise; on an exception the score falls back to TF-IDF with details
`"TF-IDF based (embedding unavailable)"`.  Low scores add suggestions. -/
def calculate_semantic_score (resume_text jd_text : String)
    (parsed_resume : Option ParsedResume) (collab : SemanticCollab) :
    ScoreComponent :=
  let attempt : Except Unit (ℚ × String) :=
    match parsed_resume with
    | some _ =>
        match collab.sectioned with
        | .ok result =>
            .ok (result.overall_similarity,
              match result.best_matching_sections with
              | (best_section, _) :: _ =>
                  "Best match: " ++ pyTitleStr best_section ++ " section"
              | [] => "Section analysis completed")
        | .error e => .error e
    | none =>
        match collab.plain with
        | .ok s => .ok (s, "Overall content alignment")
        | .error e => .error e
  let sd : ℚ × String :=
    match attempt with
    | .ok r => r
    | .error _ => (collab.tfidf, "TF-IDF based (embedding unavailable)")
  let score := sd.1
  let suggestions :=
    (if score < 0.5 then
      ["Use more keywords and terminology from the job description"]
    else []) ++
    (if score < 0.3 then
      ["Tailor your resume more specifically to this role"]
    else [])
  { name := "Semantic Match"
    score := score
    weight := 0.3
    details := sd.2
    suggestions := suggestions }

/-- Python `int()` of a non-negative rational (used in detail strings). -/
def pyInt (q : ℚ) : Int :=
  q.floor

/-- `calculate_skill_coverage_score(skill_analysis)`. -/
def calculate_skill_coverage_score (sa : SkillAnalysisResult) :
    ScoreComponent :=
  let must_have_coverage := SkillAnalysisResult.must_have_coverage sa
  let nice_to_have_coverage := SkillAnalysisResult.nice_to_have_coverage sa
  let score := must_have_coverage * 0.7 + nice_to_have_coverage * 0.3
  let suggestions :=
    (if sa.must_have_missing ≠ [] then
      ["Add critical skills: " ++
        String.intercalate ", "
          ((sa.must_have_missing.take 3).map
            (fun s => pyTitleStr (underscoreToSpace s)))]
    else []) ++
    (if sa.nice_to_have_missing ≠ [] && 0.7 < must_have_coverage then
      ["Consider adding: " ++
        String.intercalate ", "
          ((sa.nice_to_have_missing.take 2).map
            (fun s => pyTitleStr (underscoreToSpace s)))]
    else [])
  let details :=
    "Must-have: " ++ toString (pyInt (must_have_coverage * 100)) ++ "% (" ++
      toString sa.must_have_matched.length ++ "/" ++
      toString (sa.must_have_matched.length + sa.must_have_missing.length) ++
      ") | Nice-to-have: " ++
      toString (pyInt (nice_to_have_coverage * 100)) ++ "% (" ++
      toString sa.nice_to_have_matched.length ++ "/" ++
      toString
        (sa.nice_to_have_matched.length + sa.nice_to_have_missing.length) ++
      ")"
  { name := "Skill Coverage"
    score := score
    weight := 0.4
    details := details
    suggestions := suggestions }

/-- Count of detected skills with `is_proven` (local `proven_count`). -/
def evidenceProvenCount (sa : SkillAnalysisResult) : Nat :=
  (sa.detected_skills.map Prod.snd).countP (fun s => DetectedSkill.is_proven s)

/-- Count of detected skills with `is_only_listed` (local
`listed_only_count`). -/
def evidenceListedCount (sa : SkillAnalysisResult) : Nat :=
  (sa.detected_skills.map Prod.snd).countP
    (fun s => DetectedSkill.is_only_listed s)

/-- `calculate_evidence_score(skill_analysis, parsed_resume)`. -/
def calculate_evidence_score (sa : SkillAnalysisResult)
    (parsed_resume : Option ParsedResume) : ScoreComponent :=
  if sa.detected_skills = [] then
    { name := "Evidence Strength"
      score := 0.0
      weight := 0.2
      details := "No skills detected to evaluate"
      suggestions := ["Add skills with evidence in projects or experience"] }
  else
    let proven_count := evidenceProvenCount sa
    let listed_only_count := evidenceListedCount sa
    let total := sa.detected_skills.length
    let proven_frac : ℚ :=
      if 0 < total then (proven_count : ℚ) / (total : ℚ) else 0
    let listed_frac : ℚ :=
      if 0 < total then (listed_only_count : ℚ) / (total : ℚ) else 0
    let score := min 1.0 (proven_frac + listed_frac * 0.5)
    let details :=
      toString proven_count ++ " proven in Experience/Projects, " ++
        toString listed_only_count ++ " only listed"
    let suggestions :=
      (if proven_count < listed_only_count then
        let listed_skills :=
          (((sa.detected_skills.map Prod.snd).filter
              (fun s => DetectedSkill.is_only_listed s)).map
            (fun s => s.skill_name)).take 3
        if listed_skills ≠ [] then
          ["Add project examples using: " ++
            String.intercalate ", " listed_skills]
        else []
      else []) ++
      (if proven_count = 0 then
        ["Add concrete examples in Experience/Projects sections"]
      else [])
    { name := "Evidence Strength"
      score := score
      weight := 0.2
      details := details
      suggestions := suggestions }

/-! ## hybrid_scoring.py : impact component -/

/-- The `strong_verbs` list of `calculate_impact_score`. -/
def strongVerbList : List String :=
  ["built", "developed", "engineered", "designed", "implemented",
   "created", "launched", "deployed", "optimized", "improved",
   "increased", "reduced", "achieved", "led", "managed",
   "architected", "automated", "streamlined", "transformed"]

/-- The `weak_verbs` list of `calculate_impact_score`. -/
def weakVerbList : List String :=
  ["worked on", "helped with", "assisted", "participated",
   "was responsible for", "involved in"]

/-- Python substring containment `sub in t`. -/
def containsSub (t sub : List Char) : Bool :=
  (List.range (t.length + 1)).any
    (fun i => decide ((t.drop i).take sub.length = sub))

/-- `\d`. -/
def reDigit : RE :=
  RE.cls "0123456789".data

/-- `\d+`. -/
def reDigitPlus : RE :=
  RE.cat reDigit (RE.star reDigit)

/-- The `metric_patterns` of `calculate_impact_score` (matched with
`re.IGNORECASE`, realized by lowering the text; the patterns contain no
uppercase letters). -/
def metricPatterns : List RE :=
  [ RE.cat reDigitPlus (RE.cls ['%']),
    RE.cat reDigitPlus (RE.cls ['x']),
    RE.cat (RE.cls ['$'])
      (RE.cat (RE.cls (',' :: "0123456789".data))
        (RE.star (RE.cls (',' :: "0123456789".data)))),
    RE.cat reDigitPlus
      (RE.cat reWSStar
        (ralt [RE.cat (rstr "user") (ropt (rstr "s")),
               RE.cat (rstr "customer") (ropt (rstr "s")),
               RE.cat (rstr "client") (ropt (rstr "s"))])),
    RE.cat (ralt [rstr "increased", rstr "improved",
                  rstr "reduced", rstr "decreased"])
      (RE.cat reWSPlus (RE.cat (rstr "by") (RE.cat reWSPlus reDigitPlus))) ]

/-- End of the (greedy) match of `r` anchored at `p` in `t`, if any. -/
def reFindEnd (r : RE) (t : List Char) (p : Nat) : Option Nat :=
  ((List.range (t.length + 1)).filter (fun e =>
      p ≤ e && reMatches r (extractL t p e))).max?

/-- `len(re.findall(r, t))`: non-overlapping matches scanned left to
right, resuming after each match (first argument is fuel for structural
recursion; every step advances the position, so fuel `t.length + 1` is
always sufficient). -/
def reCountFrom (r : RE) (t : List Char) : Nat → Nat → Nat
  | 0, _ => 0
  | fuel + 1, p =>
      if t.length < p then 0
      else
        match reFindEnd r t p with
        | some e => 1 + reCountFrom r t fuel (max e (p + 1))
        | none => reCountFrom r t fuel (p + 1)

/-- Number of matches of `r` in `t`. -/
def reCount (r : RE) (t : List Char) : Nat :=
  reCountFrom r t (t.length + 1) 0

/-- The text `calculate_impact_score` analyzes: the combined
Experience/Projects/Summary text when a parsed resume is available, the
full resume text otherwise. -/
def impactRelevantText (resume_text : String)
    (parsed_resume : Option ParsedResume) : String :=
  match parsed_resume with
  | some pr => getCombinedText pr [.experience, .projects, .summary]
  | none => resume_text

/-- Local `strong_count`. -/
def impactStrongCount (text_lower : List Char) : Nat :=
  (strongVerbList.filter (fun v => containsSub text_lower v.data)).length

/-- Local `weak_count`. -/
def impactWeakCount (text_lower : List Char) : Nat :=
  (weakVerbList.filter (fun v => containsSub text_lower v.data)).length

/-- Local `metric_count`. -/
def impactMetricCount (relevant_text : String) : Nat :=
  (metricPatterns.map (fun p => reCount p (lowerStr relevant_text))).sum

/-- Local `weak_penalty = min(0.3, weak_count * 0.1)`. -/
def impactWeakPenalty (weak_count : Nat) : ℚ :=
  min 0.3 ((weak_count : ℚ) * 0.1)

/-- `calculate_impact_score(resume_text, parsed_resume)`. -/
def calculate_impact_score (resume_text : String)
    (parsed_resume : Option ParsedResume) : ScoreComponent :=
  let relevant_text := impactRelevantText resume_text parsed_resume
  let text_lower := lowerStr relevant_text
  let strong_count := impactStrongCount text_lower
  let weak_count := impactWeakCount text_lower
  let metric_count := impactMetricCount relevant_text
  let verb_score := min 1.0 ((strong_count : ℚ) / 8)
  let metric_score := min 1.0 ((metric_count : ℚ) / 5)
  let weak_penalty := impactWeakPenalty weak_count
  let score := (verb_score * 0.5 + metric_score * 0.5) - weak_penalty
  let score := max 0.0 (min 1.0 score)
  let details :=
    toString strong_count ++ " strong verbs, " ++ toString metric_count ++
      " metrics, " ++ toString weak_count ++ " weak phrases"
  let suggestions :=
    (if metric_count < 3 then
      ["Add quantified achievements (%, numbers, timeframes)"]
    else []) ++
    (if strong_count < 5 then
      ["Use stronger action verbs (built, developed, optimized)"]
    else []) ++
    (if 2 < weak_count then
      ["Replace weak phrases like 'worked on' with specific actions"]
    else [])
  { name := "Impact Quality"
    score := score
    weight := 0.1
    details := details
    suggestions := suggestions }

/-! ## hybrid_scoring.py : HybridScore and compute_hybrid_score -/

/-- `HybridScore` dataclass. -/
structure HybridScore where
  skill_coverage : ScoreComponent
  semantic_similarity : ScoreComponent
  evidence_strength : ScoreComponent
  impact_quality : ScoreComponent
  skill_analysis : Option SkillAnalysisResult
  parsed_resume : Option ParsedResume
deriving DecidableEq

/-- `HybridScore.final_score` property: the sum of the four weighted
component scores. -/
def HybridScore.final_score (h : HybridScore) : ℚ :=
  ScoreComponent.weighted_score h.skill_coverage +
    ScoreComponent.weighted_score h.semantic_similarity +
    ScoreComponent.weighted_score h.evidence_strength +
    ScoreComponent.weighted_score h.impact_quality

/-- `HybridScore.all_components` property. -/
def HybridScore.all_components (h : HybridScore) : List ScoreComponent :=
  [h.skill_coverage, h.semantic_similarity, h.evidence_strength,
   h.impact_quality]

/-- `compute_hybrid_score(resume_text, jd_text, role_taxonomy,
parsed_resume)`: parses the resume when needed, analyzes skills, and
assembles the four components.  The semantic collaborator outcome is the
explicit `collab` parameter (see `SemanticCollab`). -/
def compute_hybrid_score (resume_text jd_text : String)
    (role_taxonomy : RoleTaxonomy) (parsed_resume : Option ParsedResume)
    (collab : SemanticCollab) : HybridScore :=
  let pr := resolveParsed resume_text parsed_resume
  let sa := analyze_skills_sectioned pr role_taxonomy
  { skill_coverage := calculate_skill_coverage_score sa
    semantic_similarity :=
      calculate_semantic_score resume_text jd_text (some pr) collab
    evidence_strength := calculate_evidence_score sa (some pr)
    impact_quality := calculate_impact_score resume_text (some pr)
    skill_analysis := some sa
    parsed_resume := some pr }

/-! ## recommendations.py -/

/-- `RoleMatch` dataclass. -/
structure RoleMatch where
  role_key : String
  role_title : String
  alignment_score : ℚ
  must_have_matched : List String
  must_have_missing : List String
  nice_to_have_matched : List String
  nice_to_have_missing : List String
deriving DecidableEq

/-- `RoleMatch.must_have_coverage` property. -/
def RoleMatch.must_have_coverage (m : RoleMatch) : ℚ :=
  let total := m.must_have_matched.length + m.must_have_missing.length
  if total = 0 then 0.0 else (m.must_have_matched.length : ℚ) / (total : ℚ)

/-- `RoleMatch.nice_to_have_coverage` property. -/
def RoleMatch.nice_to_have_coverage (m : RoleMatch) : ℚ :=
  let total := m.nice_to_have_matched.length + m.nice_to_have_missing.length
  if total = 0 then 0.0
  else (m.nice_to_have_matched.length : ℚ) / (total : ℚ)

/-- `calculate_role_alignment(resume_text, role_taxonomy, parsed_resume)`
(the caller sets `role_key` afterwards, hence the empty string here). -/
def calculate_role_alignment (resume_text : String) (role_taxonomy : RoleTaxonomy)
    (parsed_resume : Option ParsedResume) : RoleMatch :=
  let pr := resolveParsed resume_text parsed_resume
  let sa := analyze_skills_sectioned pr role_taxonomy
  let must_have_score := SkillAnalysisResult.must_have_coverage sa
  let nice_to_have_score := SkillAnalysisResult.nice_to_have_coverage sa
  let evidence_bonus := SkillAnalysisResult.proven_skills_frac sa * 0.1
  let alignment_score :=
    (must_have_score * 0.7 + nice_to_have_score * 0.3) + evidence_bonus
  let alignment_score := min 1.0 alignment_score
  { role_key := ""
    role_title := role_taxonomy.title
    alignment_score := alignment_score
    must_have_matched := sa.must_have_matched
    must_have_missing := sa.must_have_missing
    nice_to_have_matched := sa.nice_to_have_matched
    nice_to_have_missing := sa.nice_to_have_missing }

/-- One track of the taxonomy catalog (`track_data.get("roles", {})`),
with roles as an insertion-ordered map. -/
structure Track where
  roles : List (String × RoleTaxonomy)
deriving DecidableEq

/-- `RoleRecommendation` dataclass (`resume_skills` is a Python set of
strings, modelled as a deduplicated list; the `matches` field is primed
because `matches` is reserved in Lean). -/
structure RoleRecommendation where
  matches' : List RoleMatch
  resume_skills : List String
deriving DecidableEq

/-- The `matches` list of `recommend_roles` in build order: the nested
loop over tracks, then over each track's roles, in declaration order,
setting each match's `role_key`. -/
def recommendMatchesInOrder (resume_text : String)
    (taxonomy : List (String × Track)) (pr : ParsedResume) :
    List RoleMatch :=
  taxonomy.flatMap (fun tk =>
    tk.2.roles.map (fun rk =>
      { calculate_role_alignment resume_text rk.2 (some pr) with
          role_key := rk.1 }))

/-- Insertion step of a stable descending sort by `alignment_score`:
`m` precedes the first element it is greater than or equal to, so
earlier-built matches stay in front on ties. -/
def insertByAlignment (m : RoleMatch) : List RoleMatch → List RoleMatch
  | [] => [m]
  | x :: xs =>
      if x.alignment_score ≤ m.alignment_score then m :: x :: xs
      else x :: insertByAlignment m xs

/-- Stable descending sort by `alignment_score`, modelling Python's
stable `matches.sort(key=lambda m: m.alignment_score, reverse=True)`. -/
def sortByAlignment : List RoleMatch → List RoleMatch
  | [] => []
  | x :: xs => insertByAlignment x (sortByAlignment xs)

/-- `recommend_roles(resume_text, taxonomy, parsed_resume)`. -/
def recommend_roles (resume_text : String)
    (taxonomy : List (String × Track)) (parsed_resume : Option ParsedResume) :
    RoleRecommendation :=
  let pr := resolveParsed resume_text parsed_resume
  let ms := recommendMatchesInOrder resume_text taxonomy pr
  { matches' := sortByAlignment ms
    resume_skills :=
      (ms.flatMap (fun m =>
        m.must_have_matched ++ m.nice_to_have_matched)).eraseDups }

/-! ## Helper lemmas -/

/-- Bounds of a ratio of a count over a larger count. -/
lemma ratDivBounds {a t : Nat} (hat : a ≤ t) (ht : t ≠ 0) :
    0 ≤ (a : ℚ) / (t : ℚ) ∧ (a : ℚ) / (t : ℚ) ≤ 1 := by
  have htq : (0 : ℚ) < (t : ℚ) := by exact_mod_cast Nat.pos_of_ne_zero ht
  constructor
  · positivity
  · rw [div_le_one htq]
    exact_mod_cast hat

/-- `must_have_coverage` lies in `[0, 1]`. -/
lemma must_have_coverage_bounds (sa : SkillAnalysisResult) :
    0 ≤ SkillAnalysisResult.must_have_coverage sa ∧
      SkillAnalysisResult.must_have_coverage sa ≤ 1 := by
  unfold SkillAnalysisResult.must_have_coverage
  by_cases h : sa.must_have_matched.length + sa.must_have_missing.length = 0
  · simp [h]
    norm_num
  · simpa [h] using ratDivBounds (Nat.le_add_right _ _) h

/-- `nice_to_have_coverage` lies in `[0, 1]`. -/
lemma nice_to_have_coverage_bounds (sa : SkillAnalysisResult) :
    0 ≤ SkillAnalysisResult.nice_to_have_coverage sa ∧
      SkillAnalysisResult.nice_to_have_coverage sa ≤ 1 := by
  unfold SkillAnalysisResult.nice_to_have_coverage
  by_cases h : sa.nice_to_have_matched.length + sa.nice_to_have_missing.length = 0
  · simp [h]
    norm_num
  · simpa [h] using ratDivBounds (Nat.le_add_right _ _) h

/-- The skill-coverage component score lies in `[0, 1]`. -/
lemma skill_coverage_score_bounds (sa : SkillAnalysisResult) :
    0 ≤ (calculate_skill_coverage_score sa).score ∧
      (calculate_skill_coverage_score sa).score ≤ 1 := by
  obtain ⟨h1, h2⟩ := must_have_coverage_bounds sa
  obtain ⟨h3, h4⟩ := nice_to_have_coverage_bounds sa
  unfold calculate_skill_coverage_score
  constructor
  · simp only
    nlinarith
  · simp only
    nlinarith

/-- The evidence component score lies in `[0, 1]`. -/
lemma evidence_score_bounds (sa : SkillAnalysisResult)
    (pr : Option ParsedResume) :
    0 ≤ (calculate_evidence_score sa pr).score ∧
      (calculate_evidence_score sa pr).score ≤ 1 := by
  unfold calculate_evidence_score
  by_cases h : sa.detected_skills = []
  · simp [h]
    norm_num
  · simp only [h, if_false]
    have hlen : (0 : ℚ) ≤ (sa.detected_skills.length : ℚ) := by positivity
    constructor
    · apply le_min (by norm_num)
      have hp : (0 : ℚ) ≤
          (if 0 < sa.detected_skills.length then
            (evidenceProvenCount sa : ℚ) / (sa.detected_skills.length : ℚ)
          else 0) := by
        split
        · positivity
        · exact le_refl 0
      have hl : (0 : ℚ) ≤
          (if 0 < sa.detected_skills.length then
            (evidenceListedCount sa : ℚ) / (sa.detected_skills.length : ℚ)
          else 0) := by
        split
        · positivity
        · exact le_refl 0
      nlinarith
    · exact le_trans (min_le_left _ _) (by norm_num)

/-- The semantic component score reproduces the collaborator's score (or
the TF-IDF fallback), hence is bounded whenever those are. -/
lemma semantic_score_bounds (rt jd : String) (parsed : Option ParsedResume)
    (collab : SemanticCollab)
    (h1 : ∀ m, collab.sectioned = .ok m →
      0 ≤ m.overall_similarity ∧ m.overall_similarity ≤ 1)
    (h2 : ∀ q, collab.plain = .ok q → 0 ≤ q ∧ q ≤ 1)
    (h3 : 0 ≤ collab.tfidf) (h4 : collab.tfidf ≤ 1) :
    0 ≤ (calculate_semantic_score rt jd parsed collab).score ∧
      (calculate_semantic_score rt jd parsed collab).score ≤ 1 := by
  unfold calculate_semantic_score
  cases parsed with
  | some p =>
      cases hs : collab.sectioned with
      | ok m => simpa [hs] using h1 m hs
      | error e => simpa [hs] using ⟨h3, h4⟩
  | none =>
      cases hs : collab.plain with
      | ok q => simpa [hs] using h2 q hs
      | error e => simpa [hs] using ⟨h3, h4⟩

/-- The impact component score is exactly the clamped combination of the
verb score, metric score and weak penalty. -/
lemma impact_score_eq (rt : String) (parsed : Option ParsedResume) :
    (calculate_impact_score rt parsed).score =
      max 0.0 (min 1.0
        ((min 1.0 ((impactStrongCount (lowerStr (impactRelevantText rt parsed)) : ℚ) / 8) * 0.5 +
            min 1.0 ((impactMetricCount (impactRelevantText rt parsed) : ℚ) / 5) * 0.5) -
          impactWeakPenalty (impactWeakCount (lowerStr (impactRelevantText rt parsed))))) :=
  rfl

/-- The impact component score lies in `[0, 1]`. -/
lemma impact_score_bounds (rt : String) (parsed : Option ParsedResume) :
    0 ≤ (calculate_impact_score rt parsed).score ∧
      (calculate_impact_score rt parsed).score ≤ 1 := by
  rw [impact_score_eq]
  constructor
  · apply le_max_of_le_left
    norm_num
  · exact max_le (by norm_num)
      (le_trans (min_le_left _ _) (by norm_num))

/-! ## Claim theorems -/

set_option maxRecDepth 8000

/-- C5: `parse_resume` is total by construction, and on any text where
the heading pattern finds no match it returns exactly one section, of
type `Other`, with offsets `0` to `len(text)`, whose content is the
entire text. -/
theorem parse_resume_no_heading (text : String)
    (h : findHeadingMatches text.data = []) :
    parse_resume text =
      { original_text := text
        sections := [{ section_type := .other, heading := "", content := text,
                       start_pos := 0, end_pos := text.length }] } := by
  simp only [parse_resume, h]

/-- Witness for C5 at the headingless text `"z"`. -/
theorem parse_resume_no_heading_wit :
    parse_resume "z" = ⟨"z", [⟨.other, "", "z", 0, 1⟩]⟩ :=
  parse_resume_no_heading "z" (by decide)

/-- The two length-6 windows of `fuzzBestWindow` on
`"python"` vs `"pythons"`. -/
lemma fuzz_python_window :
    fuzzBestWindow (lowerStr "python") (lowerStr "pythons") =
      max (max 0 (fuzzScore100 (lowerStr "python")
          (((lowerStr "pythons").drop 0).take 6)))
        (fuzzScore100 (lowerStr "python")
          (((lowerStr "pythons").drop 1).take 6)) := by
  rfl

/-- The first window is `"python"` itself, scoring 100. -/
lemma fuzz_python_score :
    fuzzScore100 (lowerStr "python") (((lowerStr "pythons").drop 0).take 6)
      = 100 := by
  have he : ((lowerStr "pythons").drop 0).take 6 = lowerStr "python" := by
    decide
  rw [he]
  have hlen : (lowerStr "python").length = 6 := by decide
  have hlcs : lcsLen 12 (lowerStr "python") (lowerStr "python") = 6 := by
    decide
  unfold fuzzScore100
  rw [hlen]
  norm_num [hlcs]

/-- C2 (divergence witness): for the resume text `"pythons"` (one `Other`
section, exactly what `parse_resume` produces for it) and a taxonomy with
the single must-have skill `python` with alias `"python"`, no exact
whole-word match exists, the alias has length ≥ 4, and its partial-ratio
similarity to the section text is above the threshold 85 — yet
`analyze_skills_sectioned` reports the skill as missing, with no
`DetectedSkill` and no evidence, because its fuzzy pass is only consulted
for sections that already produced exact-match evidence. -/
theorem fuzzy_only_skill_reported_missing :
    hasExactMatch (lowerStr "pythons") (lowerStr "python") = false ∧
    4 ≤ ("python" : String).length ∧
    (85 : ℚ) ≤ fuzzBestWindow (lowerStr "python") (lowerStr "pythons") ∧
    (analyze_skills_sectioned ⟨"pythons", [⟨.other, "", "pythons", 0, 7⟩]⟩
        ⟨"", [("python", ⟨["python"], 1.0, "language"⟩)], []⟩).must_have_missing
      = ["python"] ∧
    (analyze_skills_sectioned ⟨"pythons", [⟨.other, "", "pythons", 0, 7⟩]⟩
        ⟨"", [("python", ⟨["python"], 1.0, "language"⟩)], []⟩).must_have_matched
      = [] ∧
    (analyze_skills_sectioned ⟨"pythons", [⟨.other, "", "pythons", 0, 7⟩]⟩
        ⟨"", [("python", ⟨["python"], 1.0, "language"⟩)], []⟩).detected_skills
      = [] := by
  refine ⟨by decide, by decide, ?_, by decide, by decide, by decide⟩
  rw [fuzz_python_window]
  apply le_max_of_le_left
  apply le_max_of_le_right
  rw [fuzz_python_score]
  norm_num

/-- C7: the Impact Quality component's score is clamped to `[0, 1]`, and
the weak-phrase penalty is bounded above by 0.4 (the code's cap is the
even tighter 0.3), so weak phrases can never drive the score negative. -/
theorem impact_component_clamped (resume_text : String)
    (parsed_resume : Option ParsedResume) :
    (0 ≤ (calculate_impact_score resume_text parsed_resume).score ∧
      (calculate_impact_score resume_text parsed_resume).score ≤ 1) ∧
    ∀ weak_count : Nat, impactWeakPenalty weak_count ≤ 0.4 :=
  ⟨impact_score_bounds resume_text parsed_resume,
    fun _ => le_trans (min_le_left _ _) (by norm_num)⟩

/-- The score of the evidence component, branch by branch. -/
lemma evidence_score_eq (sa : SkillAnalysisResult)
    (pr : Option ParsedResume) :
    (calculate_evidence_score sa pr).score =
      if sa.detected_skills = [] then 0.0
      else
        min 1.0
          ((if 0 < sa.detected_skills.length then
              (evidenceProvenCount sa : ℚ) / (sa.detected_skills.length : ℚ)
            else 0) +
            (if 0 < sa.detected_skills.length then
              (evidenceListedCount sa : ℚ) / (sa.detected_skills.length : ℚ)
            else 0) * 0.5) := by
  unfold calculate_evidence_score
  split <;> rfl

/-- The weight of the evidence component is 0.2 in both branches. -/
lemma evidence_weight_eq (sa : SkillAnalysisResult)
    (pr : Option ParsedResume) :
    (calculate_evidence_score sa pr).weight = 0.2 := by
  unfold calculate_evidence_score
  split <;> rfl

/-- The suggestions of the evidence component when nothing was
detected. -/
lemma evidence_suggestions_empty (sa : SkillAnalysisResult)
    (pr : Option ParsedResume) (h : sa.detected_skills = []) :
    (calculate_evidence_score sa pr).suggestions =
      ["Add skills with evidence in projects or experience"] := by
  unfold calculate_evidence_score
  rw [if_pos h]

/-- C6: the Evidence Strength component has weight 0.2; with no detected
skills its score is 0 and its suggestions tell the user to add
evidence-bearing content; otherwise its score is
`min(1, proven_ratio + 0.5 * listed_only_ratio)` over all detected
skills. -/
theorem evidence_component_spec (sa : SkillAnalysisResult)
    (pr : Option ParsedResume) :
    (calculate_evidence_score sa pr).weight = 0.2 ∧
    (sa.detected_skills = [] →
      (calculate_evidence_score sa pr).score = 0 ∧
      "Add skills with evidence in projects or experience" ∈
        (calculate_evidence_score sa pr).suggestions) ∧
    (sa.detected_skills ≠ [] →
      (calculate_evidence_score sa pr).score =
        min 1
          ((evidenceProvenCount sa : ℚ) / (sa.detected_skills.length : ℚ) +
            0.5 *
              ((evidenceListedCount sa : ℚ) /
                (sa.detected_skills.length : ℚ)))) := by
  refine ⟨evidence_weight_eq sa pr, fun h => ⟨?_, ?_⟩, fun h => ?_⟩
  · rw [evidence_score_eq, if_pos h]
    norm_num
  · rw [evidence_suggestions_empty sa pr h]
    simp
  · rw [evidence_score_eq, if_neg h]
    have hpos : 0 < sa.detected_skills.length := List.length_pos.mpr h
    rw [if_pos hpos, if_pos hpos]
    norm_num [mul_comm]

/-- Witness for C6: the empty-analysis branch at a concrete empty
`SkillAnalysisResult`, and the formula branch at a one-skill result. -/
theorem evidence_component_spec_wit :
    ((calculate_evidence_score ⟨[], [], [], [], []⟩ none).score = 0 ∧
      "Add skills with evidence in projects or experience" ∈
        (calculate_evidence_score ⟨[], [], [], [], []⟩ none).suggestions) ∧
    (calculate_evidence_score
        ⟨[("python", ⟨"python", "Python", .must_have, 1, "lang", .high,
            [⟨.experience, "Experience", "s", "python", 0⟩]⟩)],
          ["python"], [], [], []⟩ none).score =
      min 1
        ((evidenceProvenCount
            ⟨[("python", ⟨"python", "Python", .must_have, 1, "lang", .high,
                [⟨.experience, "Experience", "s", "python", 0⟩]⟩)],
              ["python"], [], [], []⟩ : ℚ) / 1 +
          0.5 *
            ((evidenceListedCount
                ⟨[("python", ⟨"python", "Python", .must_have, 1, "lang", .high,
                    [⟨.experience, "Experience", "s", "python", 0⟩]⟩)],
                  ["python"], [], [], []⟩ : ℚ) / 1)) :=
  ⟨(evidence_component_spec ⟨[], [], [], [], []⟩ none).2.1 rfl,
    (evidence_component_spec _ none).2.2 (by decide)⟩

/-- C10: `is_proven` and `is_only_listed` exclude each other, and a
`DetectedSkill` with no evidence is neither proven nor only-listed. -/
theorem detected_skill_flag_exclusion (d : DetectedSkill) :
    (DetectedSkill.is_proven d = true →
      DetectedSkill.is_only_listed d = false) ∧
    (d.evidence_list = [] →
      DetectedSkill.is_proven d = false ∧
        DetectedSkill.is_only_listed d = false) := by
  constructor
  · intro hp
    unfold DetectedSkill.is_proven at hp
    rcases List.any_eq_true.mp hp with ⟨e, he, hpe⟩
    unfold DetectedSkill.is_only_listed
    have hne : d.evidence_list.isEmpty = false := by
      cases hl : d.evidence_list with
      | nil => rw [hl] at he; cases he
      | cons a l => rfl
    simp only [hne, Bool.false_eq_true, if_false]
    apply List.all_eq_false.mpr
    refine ⟨e, he, ?_⟩
    revert hpe
    cases e.section_type <;> decide
  · intro h
    constructor <;>
      simp [DetectedSkill.is_proven, DetectedSkill.is_only_listed, h]

/-- Witness for C10: a skill proven in Experience is not only-listed, and
an evidence-free skill has both flags false. -/
theorem detected_skill_flag_exclusion_wit :
    DetectedSkill.is_only_listed
      ⟨"python", "Python", .must_have, 1, "lang", .high,
        [⟨.experience, "Experience", "s", "python", 0⟩]⟩ = false ∧
    (DetectedSkill.is_proven
        ⟨"python", "Python", .must_have, 1, "lang", .low, []⟩ = false ∧
      DetectedSkill.is_only_listed
        ⟨"python", "Python", .must_have, 1, "lang", .low, []⟩ = false) :=
  ⟨(detected_skill_flag_exclusion
      ⟨"python", "Python", .must_have, 1, "lang", .high,
        [⟨.experience, "Experience", "s", "python", 0⟩]⟩).1 (by decide),
    (detected_skill_flag_exclusion
      ⟨"python", "Python", .must_have, 1, "lang", .low, []⟩).2 rfl⟩

/-- C9: when the sectioned semantic collaborator raises, the hybrid score
is still assembled: its Semantic Similarity component carries the TF-IDF
fallback score with weight 0.3 and degraded-mode details, and the other
three components equal their standalone computations. -/
theorem semantic_fallback_spec (resume_text jd_text : String)
    (tax : RoleTaxonomy) (parsed : Option ParsedResume)
    (collab : SemanticCollab)
    (herr : collab.sectioned = Except.error ()) :
    (compute_hybrid_score resume_text jd_text tax parsed
        collab).semantic_similarity =
      { name := "Semantic Match"
        score := collab.tfidf
        weight := 0.3
        details := "TF-IDF based (embedding unavailable)"
        suggestions :=
          (if collab.tfidf < 0.5 then
            ["Use more keywords and terminology from the job description"]
          else []) ++
          (if collab.tfidf < 0.3 then
            ["Tailor your resume more specifically to this role"]
          else []) } ∧
    (compute_hybrid_score resume_text jd_text tax parsed
        collab).skill_coverage =
      calculate_skill_coverage_score
        (analyze_skills_sectioned (resolveParsed resume_text parsed) tax) ∧
    (compute_hybrid_score resume_text jd_text tax parsed
        collab).evidence_strength =
      calculate_evidence_score
        (analyze_skills_sectioned (resolveParsed resume_text parsed) tax)
        (some (resolveParsed resume_text parsed)) ∧
    (compute_hybrid_score resume_text jd_text tax parsed
        collab).impact_quality =
      calculate_impact_score resume_text
        (some (resolveParsed resume_text parsed)) := by
  refine ⟨?_, rfl, rfl, rfl⟩
  simp [compute_hybrid_score, calculate_semantic_score, herr]

/-- Witness for C9 at a failing collaborator and a concrete resume. -/
theorem semantic_fallback_spec_wit :
    (compute_hybrid_score "abc" "jd" ⟨"", [], []⟩
        (some ⟨"abc", [⟨.other, "", "abc", 0, 3⟩]⟩)
        ⟨.error (), .ok 0, 0⟩).semantic_similarity =
      { name := "Semantic Match"
        score := (0 : ℚ)
        weight := 0.3
        details := "TF-IDF based (embedding unavailable)"
        suggestions :=
          (if (0 : ℚ) < 0.5 then
            ["Use more keywords and terminology from the job description"]
          else []) ++
          (if (0 : ℚ) < 0.3 then
            ["Tailor your resume more specifically to this role"]
          else []) } :=
  (semantic_fallback_spec "abc" "jd" ⟨"", [], []⟩
    (some ⟨"abc", [⟨.other, "", "abc", 0, 3⟩]⟩)
    ⟨.error (), .ok 0, 0⟩ rfl).1

/-- Each processed skill is appended to exactly one of the matched and
missing lists. -/
lemma processSkills_count (sections : List Section) (priority : SkillPriority) :
    ∀ (skills : List (String × SkillInfo))
      (st : List (String × DetectedSkill) × List String × List String),
      (processSkills sections priority skills st).2.1.length +
          (processSkills sections priority skills st).2.2.length =
        st.2.1.length + st.2.2.length + skills.length := by
  intro skills
  induction skills with
  | nil =>
      intro st
      simp [processSkills]
  | cons hd tl ih =>
      intro st
      obtain ⟨dict, matched, missing⟩ := st
      obtain ⟨sid, info⟩ := hd
      simp only [processSkills]
      split
      · rw [ih]
        simp
        omega
      · rw [ih]
        simp
        omega

/-- C3: for every parsed resume and role taxonomy, matched and missing
counts partition the taxonomy in each priority tier:
`|must_have_matched| + |must_have_missing| = |must_have|` and
symmetrically for nice-to-have. -/
theorem skill_partition_counts (pr : ParsedResume) (tax : RoleTaxonomy) :
    (analyze_skills_sectioned pr tax).must_have_matched.length +
        (analyze_skills_sectioned pr tax).must_have_missing.length =
      tax.must_have.length ∧
    (analyze_skills_sectioned pr tax).nice_to_have_matched.length +
        (analyze_skills_sectioned pr tax).nice_to_have_missing.length =
      tax.nice_to_have.length := by
  unfold analyze_skills_sectioned
  constructor
  · simpa using
      processSkills_count pr.sections .must_have tax.must_have ([], [], [])
  · simpa using
      processSkills_count pr.sections .nice_to_have tax.nice_to_have
        ((processSkills pr.sections .must_have tax.must_have ([], [], [])).1,
          [], [])

/-- Arithmetic core of C1: a 0.4/0.3/0.2/0.1-weighted combination of four
scores from `[0, 1]` stays in `[0, 1]`. -/
lemma weighted_sum_bounds {a b c d : ℚ} (ha : 0 ≤ a ∧ a ≤ 1)
    (hb : 0 ≤ b ∧ b ≤ 1) (hc : 0 ≤ c ∧ c ≤ 1) (hd : 0 ≤ d ∧ d ≤ 1) :
    0 ≤ a * 0.4 + b * 0.3 + c * 0.2 + d * 0.1 ∧
      a * 0.4 + b * 0.3 + c * 0.2 + d * 0.1 ≤ 1 := by
  obtain ⟨ha0, ha1⟩ := ha
  obtain ⟨hb0, hb1⟩ := hb
  obtain ⟨hc0, hc1⟩ := hc
  obtain ⟨hd0, hd1⟩ := hd
  constructor <;> nlinarith

/-- C1: for every `HybridScore` produced by `compute_hybrid_score` (with
the external similarity collaborators honoring their documented `[0, 1]`
interface), the final score is the sum over the four components of
`score × weight`, the weights are exactly 0.4, 0.3, 0.2 and 0.1 summing
to 1.0, and the final score lies in `[0, 1]`. -/
theorem hybrid_final_score_spec (resume_text jd_text : String)
    (tax : RoleTaxonomy) (parsed : Option ParsedResume)
    (collab : SemanticCollab)
    (h1 : ∀ m, collab.sectioned = Except.ok m →
      0 ≤ m.overall_similarity ∧ m.overall_similarity ≤ 1)
    (h2 : ∀ q, collab.plain = Except.ok q → 0 ≤ q ∧ q ≤ 1)
    (h3 : 0 ≤ collab.tfidf) (h4 : collab.tfidf ≤ 1) :
    HybridScore.final_score
        (compute_hybrid_score resume_text jd_text tax parsed collab) =
      (((compute_hybrid_score resume_text jd_text tax parsed
            collab).all_components.map (fun c => c.score * c.weight)).sum) ∧
    (compute_hybrid_score resume_text jd_text tax parsed
        collab).skill_coverage.weight = 0.4 ∧
    (compute_hybrid_score resume_text jd_text tax parsed
        collab).semantic_similarity.weight = 0.3 ∧
    (compute_hybrid_score resume_text jd_text tax parsed
        collab).evidence_strength.weight = 0.2 ∧
    (compute_hybrid_score resume_text jd_text tax parsed
        collab).impact_quality.weight = 0.1 ∧
    (compute_hybrid_score resume_text jd_text tax parsed
          collab).skill_coverage.weight +
        (compute_hybrid_score resume_text jd_text tax parsed
          collab).semantic_similarity.weight +
        (compute_hybrid_score resume_text jd_text tax parsed
          collab).evidence_strength.weight +
        (compute_hybrid_score resume_text jd_text tax parsed
          collab).impact_quality.weight = 1 ∧
    0 ≤ HybridScore.final_score
        (compute_hybrid_score resume_text jd_text tax parsed collab) ∧
    HybridScore.final_score
        (compute_hybrid_score resume_text jd_text tax parsed collab) ≤ 1 := by
  have hb1 :=
    skill_coverage_score_bounds
      (analyze_skills_sectioned (resolveParsed resume_text parsed) tax)
  have hb2 :=
    semantic_score_bounds resume_text jd_text
      (some (resolveParsed resume_text parsed)) collab h1 h2 h3 h4
  have hb3 :=
    evidence_score_bounds
      (analyze_skills_sectioned (resolveParsed resume_text parsed) tax)
      (some (resolveParsed resume_text parsed))
  have hb4 := impact_score_bounds resume_text
      (some (resolveParsed resume_text parsed))
  have hfs : HybridScore.final_score
      (compute_hybrid_score resume_text jd_text tax parsed collab) =
      (calculate_skill_coverage_score
          (analyze_skills_sectioned (resolveParsed resume_text parsed)
            tax)).score * 0.4 +
        (calculate_semantic_score resume_text jd_text
          (some (resolveParsed resume_text parsed)) collab).score * 0.3 +
        (calculate_evidence_score
            (analyze_skills_sectioned (resolveParsed resume_text parsed) tax)
            (some (resolveParsed resume_text parsed))).score *
          (calculate_evidence_score
            (analyze_skills_sectioned (resolveParsed resume_text parsed) tax)
            (some (resolveParsed resume_text parsed))).weight +
        (calculate_impact_score resume_text
          (some (resolveParsed resume_text parsed))).score * 0.1 := rfl
  rw [evidence_weight_eq] at hfs
  refine ⟨?_, rfl, rfl,
    evidence_weight_eq
      (analyze_skills_sectioned (resolveParsed resume_text parsed) tax)
      (some (resolveParsed resume_text parsed)), rfl, ?_, ?_, ?_⟩
  · simp only [HybridScore.final_score, HybridScore.all_components,
      ScoreComponent.weighted_score, List.map_cons, List.map_nil,
      List.sum_cons, List.sum_nil]
    ring
  · have hw := evidence_weight_eq
      (analyze_skills_sectioned (resolveParsed resume_text parsed) tax)
      (some (resolveParsed resume_text parsed))
    show (0.4 : ℚ) + 0.3 +
        (calculate_evidence_score
          (analyze_skills_sectioned (resolveParsed resume_text parsed) tax)
          (some (resolveParsed resume_text parsed))).weight + 0.1 = 1
    rw [hw]
    norm_num
  · rw [hfs]
    exact (weighted_sum_bounds hb1 hb2 hb3 hb4).1
  · rw [hfs]
    exact (weighted_sum_bounds hb1 hb2 hb3 hb4).2

/-- Witness for C1: bounds of the final score at a concrete resume,
empty taxonomy and a well-behaved collaborator. -/
theorem hybrid_final_score_spec_wit :
    0 ≤ HybridScore.final_score
        (compute_hybrid_score "abc" "jd" ⟨"", [], []⟩
          (some ⟨"abc", [⟨.other, "", "abc", 0, 3⟩]⟩)
          ⟨.ok ⟨0, [], [], true⟩, .ok 0, 0⟩) ∧
    HybridScore.final_score
        (compute_hybrid_score "abc" "jd" ⟨"", [], []⟩
          (some ⟨"abc", [⟨.other, "", "abc", 0, 3⟩]⟩)
          ⟨.ok ⟨0, [], [], true⟩, .ok 0, 0⟩) ≤ 1 :=
  ⟨(hybrid_final_score_spec "abc" "jd" ⟨"", [], []⟩
      (some ⟨"abc", [⟨.other, "", "abc", 0, 3⟩]⟩)
      ⟨.ok ⟨0, [], [], true⟩, .ok 0, 0⟩
      (fun m hm => by cases hm; exact ⟨le_rfl, by norm_num⟩)
      (fun q hq => by cases hq; exact ⟨le_rfl, by norm_num⟩)
      le_rfl (by norm_num)).2.2.2.2.2.2.1,
    (hybrid_final_score_spec "abc" "jd" ⟨"", [], []⟩
      (some ⟨"abc", [⟨.other, "", "abc", 0, 3⟩]⟩)
      ⟨.ok ⟨0, [], [], true⟩, .ok 0, 0⟩
      (fun m hm => by cases hm; exact ⟨le_rfl, by norm_num⟩)
      (fun q hq => by cases hq; exact ⟨le_rfl, by norm_num⟩)
      le_rfl (by norm_num)).2.2.2.2.2.2.2⟩

/-! ## Stable sorting lemmas for the role ranker -/

/-- Membership in the insertion step. -/
lemma mem_insertByAlignment {m x : RoleMatch} {l : List RoleMatch} :
    x ∈ insertByAlignment m l ↔ x = m ∨ x ∈ l := by
  induction l with
  | nil => simp [insertByAlignment]
  | cons y ys ih =>
      unfold insertByAlignment
      split
      · simp [List.mem_cons]
      · simp only [List.mem_cons, ih]
        tauto

/-- Inserting into a descending-sorted list keeps it sorted. -/
lemma pairwise_insertByAlignment {m : RoleMatch} {l : List RoleMatch}
    (h : l.Pairwise (fun a b => b.alignment_score ≤ a.alignment_score)) :
    (insertByAlignment m l).Pairwise
      (fun a b => b.alignment_score ≤ a.alignment_score) := by
  induction l with
  | nil => simp [insertByAlignment]
  | cons y ys ih =>
      rw [List.pairwise_cons] at h
      obtain ⟨hy, hys⟩ := h
      unfold insertByAlignment
      split
      · rename_i hle
        rw [List.pairwise_cons]
        refine ⟨?_, ?_⟩
        · intro b hb
          rcases List.mem_cons.mp hb with rfl | hb'
          · exact hle
          · exact le_trans (hy b hb') hle
        · rw [List.pairwise_cons]
          exact ⟨hy, hys⟩
      · rename_i hgt
        rw [List.pairwise_cons]
        refine ⟨?_, ih hys⟩
        intro b hb
        rcases mem_insertByAlignment.mp hb with rfl | hb'
        · exact le_of_not_le hgt
        · exact hy b hb'

/-- `sortByAlignment` sorts descending by alignment score. -/
lemma sortByAlignment_pairwise (l : List RoleMatch) :
    (sortByAlignment l).Pairwise
      (fun a b => b.alignment_score ≤ a.alignment_score) := by
  induction l with
  | nil => simp [sortByAlignment]
  | cons x xs ih =>
      simp only [sortByAlignment]
      exact pairwise_insertByAlignment ih

/-- Filtering one alignment level commutes with the insertion step: the
skipped prefix consists of strictly larger scores. -/
lemma filter_insertByAlignment (m : RoleMatch) (l : List RoleMatch) (q : ℚ) :
    (insertByAlignment m l).filter (fun x => decide (x.alignment_score = q)) =
      if m.alignment_score = q then
        m :: l.filter (fun x => decide (x.alignment_score = q))
      else l.filter (fun x => decide (x.alignment_score = q)) := by
  induction l with
  | nil =>
      by_cases hm : m.alignment_score = q <;>
        simp [insertByAlignment, List.filter, hm]
  | cons y ys ih =>
      unfold insertByAlignment
      split
      · rename_i hle
        by_cases hm : m.alignment_score = q <;>
          simp [List.filter_cons, hm]
      · rename_i hgt
        by_cases hm : m.alignment_score = q
        · have hy : ¬ (y.alignment_score = q) := fun he =>
            hgt (le_of_eq (he.trans hm.symm))
          simp [List.filter_cons, hy, hm, ih]
        · simp [List.filter_cons, hm, ih]

/-- Filtering one alignment level commutes with the whole stable sort:
equal-score elements keep their original relative order. -/
lemma filter_sortByAlignment (l : List RoleMatch) (q : ℚ) :
    (sortByAlignment l).filter (fun x => decide (x.alignment_score = q)) =
      l.filter (fun x => decide (x.alignment_score = q)) := by
  induction l with
  | nil => rfl
  | cons x xs ih =>
      simp only [sortByAlignment]
      rw [filter_insertByAlignment]
      by_cases hm : x.alignment_score = q <;>
        simp [List.filter_cons, hm, ih]

/-- C8: the role ranker's alignment formula and ordering.  Every
`calculate_role_alignment` result scores
`min(1, 0.7*must_have_coverage + 0.3*nice_to_have_coverage +
0.1*proven_ratio)`; `recommend_roles` returns the matches sorted
descending by alignment score, and for every score level the matches at
that level appear exactly in catalog declaration order (stable sort). -/
theorem role_alignment_and_ranking (resume_text : String)
    (taxonomy : List (String × Track)) (parsed : Option ParsedResume)
    (q : ℚ) (tax : RoleTaxonomy) (pr : ParsedResume) :
    ((recommend_roles resume_text taxonomy parsed).matches'.Pairwise
      (fun a b => b.alignment_score ≤ a.alignment_score)) ∧
    ((recommend_roles resume_text taxonomy parsed).matches'.filter
        (fun m => decide (m.alignment_score = q)) =
      (recommendMatchesInOrder resume_text taxonomy
          (resolveParsed resume_text parsed)).filter
        (fun m => decide (m.alignment_score = q))) ∧
    ((calculate_role_alignment resume_text tax (some pr)).alignment_score =
      min 1
        (0.7 * SkillAnalysisResult.must_have_coverage
            (analyze_skills_sectioned pr tax) +
          0.3 * SkillAnalysisResult.nice_to_have_coverage
            (analyze_skills_sectioned pr tax) +
          0.1 * SkillAnalysisResult.proven_skills_frac
            (analyze_skills_sectioned pr tax))) := by
  refine ⟨sortByAlignment_pairwise _, filter_sortByAlignment _ q, ?_⟩
  have h : (calculate_role_alignment resume_text tax (some pr)).alignment_score
      = min 1.0
          ((SkillAnalysisResult.must_have_coverage
              (analyze_skills_sectioned pr tax) * 0.7 +
            SkillAnalysisResult.nice_to_have_coverage
              (analyze_skills_sectioned pr tax) * 0.3) +
            SkillAnalysisResult.proven_skills_frac
              (analyze_skills_sectioned pr tax) * 0.1) := rfl
  rw [h]
  congr 1
  · norm_num
  · ring

/-! ## Evidence/confidence lemmas for the sectioned skill analysis -/

/-- A match position reachable from `p` keeps the scan nonempty. -/
lemma scanExactFrom_ne_nil {t a : List Char} {q : Nat} (hq : q ≤ t.length)
    (hm : exactMatchAt t a q = true) :
    ∀ (fuel p : Nat), p ≤ q → t.length + 1 ≤ fuel + p →
      scanExactFrom t a fuel p ≠ [] := by
  intro fuel
  induction fuel with
  | zero =>
      intro p hpq hfuel
      omega
  | succ n ih =>
      intro p hpq hfuel
      rw [scanExactFrom]
      rw [if_neg (by omega : ¬ t.length < p)]
      by_cases hp : exactMatchAt t a p = true
      · rw [if_pos hp]
        simp
      · rw [if_neg hp]
        have hpq' : p ≠ q := fun he => hp (he ▸ hm)
        exact ih (p + 1) (by omega) (by omega)

/-- A nonempty scan exhibits a match position. -/
lemma scanExactFrom_exists {t a : List Char} :
    ∀ (fuel p : Nat), scanExactFrom t a fuel p ≠ [] →
      ∃ q, q ≤ t.length ∧ exactMatchAt t a q = true := by
  intro fuel
  induction fuel with
  | zero =>
      intro p h
      simp [scanExactFrom] at h
  | succ n ih =>
      intro p h
      rw [scanExactFrom] at h
      by_cases h1 : t.length < p
      · rw [if_pos h1] at h
        simp at h
      · rw [if_neg h1] at h
        by_cases h2 : exactMatchAt t a p = true
        · exact ⟨p, by omega, h2⟩
        · rw [if_neg h2] at h
          exact ih _ h

/-- `re.search` succeeds exactly when `re.finditer` yields a match. -/
lemma hasExactMatch_iff (t a : List Char) :
    hasExactMatch t a = true ↔ scanExact t a ≠ [] := by
  constructor
  · intro h
    rcases List.any_eq_true.mp h with ⟨p, hp, hm⟩
    have hple : p ≤ t.length := by
      have := List.mem_range.mp hp
      omega
    exact scanExactFrom_ne_nil hple hm (t.length + 1) 0 (by omega) (by omega)
  · intro h
    rcases scanExactFrom_exists _ _ h with ⟨p, hple, hm⟩
    exact List.any_eq_true.mpr
      ⟨p, List.mem_range.mpr (by omega), hm⟩

/-- A section yields evidence for a skill iff some alias has a whole-word
occurrence in it. -/
lemma find_evidence_ne_nil_iff (sec : Section) (aliases : List String) :
    find_evidence_in_section sec aliases ≠ [] ↔
      ∃ al ∈ aliases, scanExact (lowerStr sec.content) (lowerStr al) ≠ [] := by
  unfold find_evidence_in_section
  constructor
  · intro h
    by_contra hc
    push_neg at hc
    apply h
    apply List.flatMap_eq_nil_iff.mpr
    intro al hal
    rw [List.map_eq_nil_iff]
    exact hc al hal
  · rintro ⟨al, hal, hscan⟩ hnil
    exact hscan (by
      rw [← List.map_eq_nil_iff (f := fun p =>
        ({ section_type := sec.section_type
           section_name :=
             if sec.heading ≠ "" then sec.heading
             else sectionTypeValue sec.section_type
           snippet :=
             "..." ++ pyStripStr
               ⟨extractL sec.content.data (p - 50)
                 (min sec.content.data.length
                   (p + (lowerStr al).length + 50))⟩ ++ "..."
           matched_alias := al
           position := p } : SkillEvidence))]
      exact List.flatMap_eq_nil_iff.mp hnil al hal)

/-- Whenever a section produced evidence, the exact pass of
`detect_skill_in_text` fires, so the reported confidence is `HIGH`. -/
lemma detect_high_of_evidence (sec : Section) (aliases : List String)
    (h : find_evidence_in_section sec aliases ≠ []) :
    (detect_skill_in_text sec.content aliases 85).2 = .high := by
  rcases (find_evidence_ne_nil_iff sec aliases).mp h with ⟨al, hal, hscan⟩
  have hex : hasExactMatch (lowerStr sec.content) (lowerStr al) = true :=
    (hasExactMatch_iff _ _).mpr hscan
  have hsome : (aliases.find? (fun a =>
      hasExactMatch (lowerStr sec.content) (lowerStr a))).isSome :=
    List.find?_isSome.mpr ⟨al, hal, hex⟩
  unfold detect_skill_in_text
  rcases hfind : aliases.find? (fun a =>
      hasExactMatch (lowerStr sec.content) (lowerStr a)) with _ | a
  · rw [hfind] at hsome
    simp at hsome
  · simp [hfind]

/-- Invariant of the per-skill section loop: no evidence means confidence
stays `LOW`, any evidence means confidence `HIGH`. -/
lemma collect_foldl_inv (aliases : List String) :
    ∀ (sections : List Section)
      (acc : List SkillEvidence × DetectionConfidence),
      (acc.1 = [] → acc.2 = .low) → (acc.1 ≠ [] → acc.2 = .high) →
      ((sections.foldl (collectStep aliases) acc).1 = [] →
        (sections.foldl (collectStep aliases) acc).2 = .low) ∧
      ((sections.foldl (collectStep aliases) acc).1 ≠ [] →
        (sections.foldl (collectStep aliases) acc).2 = .high) := by
  intro sections
  induction sections with
  | nil =>
      intro acc h1 h2
      exact ⟨h1, h2⟩
  | cons s ss ih =>
      intro acc h1 h2
      rw [List.foldl_cons]
      apply ih
      · unfold collectStep
        dsimp only
        split
        · exact h1
        · rename_i hev
          intro hcontra
          exact absurd (List.append_eq_nil.mp hcontra).2 hev
      · unfold collectStep
        dsimp only
        split
        · exact h2
        · rename_i hev
          intro _
          rw [detect_high_of_evidence s aliases hev]
          simp [updateConfidence]

/-- Once the accumulated evidence is nonempty it stays nonempty. -/
lemma collect_foldl_mono (aliases : List String) :
    ∀ (sections : List Section)
      (acc : List SkillEvidence × DetectionConfidence),
      acc.1 ≠ [] → (sections.foldl (collectStep aliases) acc).1 ≠ [] := by
  intro sections
  induction sections with
  | nil =>
      intro acc h
      exact h
  | cons s ss ih =>
      intro acc h
      rw [List.foldl_cons]
      apply ih
      unfold collectStep
      dsimp only
      split
      · exact h
      · intro hcontra
        exact h (List.append_eq_nil.mp hcontra).1

/-- A section with evidence makes the whole loop accumulate evidence. -/
lemma collect_foldl_ne_nil (aliases : List String) :
    ∀ (sections : List Section)
      (acc : List SkillEvidence × DetectionConfidence) (sec : Section),
      sec ∈ sections → find_evidence_in_section sec aliases ≠ [] →
      (sections.foldl (collectStep aliases) acc).1 ≠ [] := by
  intro sections
  induction sections with
  | nil =>
      intro acc sec h
      cases h
  | cons s ss ih =>
      intro acc sec hmem hev
      rw [List.foldl_cons]
      rcases List.mem_cons.mp hmem with rfl | hmem'
      · apply collect_foldl_mono
        unfold collectStep
        dsimp only
        rw [if_neg hev]
        intro hcontra
        exact hev (List.append_eq_nil.mp hcontra).2
      · exact ih _ sec hmem' hev

/-! ## Dict (insertion-ordered association list) lemmas -/

/-- The inserted key is among the keys. -/
lemma dictInsert_mem_keys {β : Type} (d : List (String × β)) (k : String)
    (v : β) : k ∈ (dictInsert d k v).map Prod.fst := by
  induction d with
  | nil => simp [dictInsert]
  | cons kv rest ih =>
      obtain ⟨k', v'⟩ := kv
      unfold dictInsert
      split
      · simp
      · simp only [List.map_cons, List.mem_cons]
        exact Or.inr ih

/-- Insertion never removes a key. -/
lemma dictInsert_keys_mono {β : Type} (d : List (String × β)) (k' : String)
    (v : β) (k : String) (h : k ∈ d.map Prod.fst) :
    k ∈ (dictInsert d k' v).map Prod.fst := by
  induction d with
  | nil => simp at h
  | cons kv rest ih =>
      obtain ⟨k0, v0⟩ := kv
      unfold dictInsert
      split
      · rename_i he
        rcases List.mem_cons.mp h with h0 | h0
        · simp only [List.map_cons, List.mem_cons]
          exact Or.inl (by simp at h0; rw [h0, he])
        · simp only [List.map_cons, List.mem_cons]
          exact Or.inr h0
      · rcases List.mem_cons.mp h with h0 | h0
        · simp only [List.map_cons, List.mem_cons]
          exact Or.inl h0
        · simp only [List.map_cons, List.mem_cons]
          exact Or.inr (ih h0)

/-- A value property preserved by insertion. -/
lemma dictInsert_values {β : Type} (P : β → Prop) (d : List (String × β))
    (k : String) (v : β) (hd : ∀ kv ∈ d, P kv.2) (hv : P v) :
    ∀ kv ∈ dictInsert d k v, P kv.2 := by
  induction d with
  | nil =>
      intro kv hkv
      simp [dictInsert] at hkv
      rw [hkv]
      exact hv
  | cons kv0 rest ih =>
      obtain ⟨k0, v0⟩ := kv0
      unfold dictInsert
      split
      · intro kv hkv
        rcases List.mem_cons.mp hkv with rfl | hkv'
        · exact hv
        · exact hd kv (List.mem_cons_of_mem _ hkv')
      · intro kv hkv
        rcases List.mem_cons.mp hkv with rfl | hkv'
        · exact hd (k0, v0) (List.mem_cons_self _ _)
        · exact ih (fun kv h => hd kv (List.mem_cons_of_mem _ h)) kv hkv'

/-- A present key has a lookup value. -/
lemma lookup_of_mem_keys {β : Type} (d : List (String × β)) (k : String)
    (h : k ∈ d.map Prod.fst) : ∃ v, d.lookup k = some v := by
  induction d with
  | nil => simp at h
  | cons kv rest ih =>
      obtain ⟨k1, v1⟩ := kv
      by_cases he : k = k1
      · exact ⟨v1, by simp [List.lookup, he]⟩
      · rcases List.mem_cons.mp h with h0 | h0
        · exact absurd (by simpa using h0) he
        · obtain ⟨v, hv⟩ := ih h0
          refine ⟨v, ?_⟩
          have hbe : (k == k1) = false := beq_eq_false_iff_ne.mpr he
          simp [List.lookup, hbe, hv]

/-- A property of all values holds of any lookup result. -/
lemma lookup_value_prop {β : Type} (P : β → Prop) (d : List (String × β))
    (hall : ∀ kv ∈ d, P kv.2) (k : String) (v : β)
    (h : d.lookup k = some v) : P v := by
  induction d with
  | nil => simp [List.lookup] at h
  | cons kv rest ih =>
      obtain ⟨k1, v1⟩ := kv
      by_cases he : k = k1
      · simp only [List.lookup, he, beq_self_eq_true] at h
        injection h with h
        rw [← h]
        exact hall (k1, v1) (List.mem_cons_self _ _)
      · simp only [List.lookup, beq_eq_false_iff_ne.mpr he] at h
        exact ih (fun kv hm => hall kv (List.mem_cons_of_mem _ hm)) h

/-! ## Per-tier loop lemmas -/

/-- Every skill the loop ever stores has confidence `HIGH` (because
evidence comes only from exact matches). -/
lemma processSkills_values_high (sections : List Section)
    (priority : SkillPriority) :
    ∀ (skills : List (String × SkillInfo))
      (st : List (String × DetectedSkill) × List String × List String),
      (∀ kv ∈ st.1, (kv.2 : DetectedSkill).confidence = .high) →
      ∀ kv ∈ (processSkills sections priority skills st).1,
        kv.2.confidence = .high := by
  intro skills
  induction skills with
  | nil =>
      intro st h
      simpa [processSkills] using h
  | cons hd tl ih =>
      intro st h
      obtain ⟨dict, matched, missing⟩ := st
      obtain ⟨sid, info⟩ := hd
      simp only [processSkills]
      split
      · exact ih _ h
      · rename_i hne
        apply ih
        dsimp only
        exact dictInsert_values
          (fun x => x.confidence = DetectionConfidence.high) dict sid
          { skill_id := sid
            skill_name := pyTitleStr (underscoreToSpace sid)
            priority := priority
            weight := info.weight
            category := info.category
            confidence := (collectSkill sections info.aliases).2
            evidence_list := (collectSkill sections info.aliases).1 } h
          ((collect_foldl_inv info.aliases sections ([], .low)
            (fun _ => rfl) (fun hc => absurd rfl hc)).2 hne)

/-- The loop never loses keys. -/
lemma processSkills_keys_mono (sections : List Section)
    (priority : SkillPriority) :
    ∀ (skills : List (String × SkillInfo))
      (st : List (String × DetectedSkill) × List String × List String)
      (k : String), k ∈ st.1.map Prod.fst →
      k ∈ (processSkills sections priority skills st).1.map Prod.fst := by
  intro skills
  induction skills with
  | nil =>
      intro st k h
      simpa [processSkills] using h
  | cons hd tl ih =>
      intro st k h
      obtain ⟨dict, matched, missing⟩ := st
      obtain ⟨sid, info⟩ := hd
      simp only [processSkills]
      split
      · exact ih _ k h
      · exact ih _ k (dictInsert_keys_mono _ _ _ _ h)

/-- A skill of the tier whose section loop finds evidence ends up among
the detected keys. -/
lemma processSkills_detected_key (sections : List Section)
    (priority : SkillPriority) :
    ∀ (skills : List (String × SkillInfo))
      (st : List (String × DetectedSkill) × List String × List String)
      (sid : String) (info : SkillInfo), (sid, info) ∈ skills →
      (collectSkill sections info.aliases).1 ≠ [] →
      sid ∈ (processSkills sections priority skills st).1.map Prod.fst := by
  intro skills
  induction skills with
  | nil =>
      intro st sid info h
      cases h
  | cons hd tl ih =>
      intro st sid info hmem hne
      obtain ⟨dict, matched, missing⟩ := st
      rcases List.mem_cons.mp hmem with heq | hmem'
      · cases heq
        simp only [processSkills]
        split
        · rename_i hc
          exact absurd hc hne
        · exact processSkills_keys_mono sections priority tl _ sid
            (dictInsert_mem_keys _ _ _)
      · obtain ⟨k0, i0⟩ := hd
        simp only [processSkills]
        split
        · exact ih _ sid info hmem' hne
        · exact ih _ sid info hmem' hne

/-- C4: if any section of the resume contains an exact whole-word match
of one of a taxonomy skill's aliases, that skill is detected and its
overall confidence is `HIGH` — independent of fuzzy matches and of
section processing order, since the per-section confidences are combined
by a maximum. -/
theorem exact_match_skill_high (pr : ParsedResume) (tax : RoleTaxonomy)
    (sid : String) (info : SkillInfo)
    (htax : (sid, info) ∈ tax.must_have ∨ (sid, info) ∈ tax.nice_to_have)
    (hexact : ∃ sec ∈ pr.sections, ∃ al ∈ info.aliases,
      hasExactMatch (lowerStr sec.content) (lowerStr al) = true) :
    ∃ d, (analyze_skills_sectioned pr tax).detected_skills.lookup sid
        = some d ∧ d.confidence = .high := by
  obtain ⟨sec, hsec, al, hal, hex⟩ := hexact
  have hscan : scanExact (lowerStr sec.content) (lowerStr al) ≠ [] :=
    (hasExactMatch_iff _ _).mp hex
  have hev : find_evidence_in_section sec info.aliases ≠ [] :=
    (find_evidence_ne_nil_iff sec info.aliases).mpr ⟨al, hal, hscan⟩
  have hcol : (collectSkill pr.sections info.aliases).1 ≠ [] :=
    collect_foldl_ne_nil info.aliases pr.sections ([], .low) sec hsec hev
  have hvalues : ∀ kv ∈ (analyze_skills_sectioned pr tax).detected_skills,
      (kv.2 : DetectedSkill).confidence = .high := by
    unfold analyze_skills_sectioned
    apply processSkills_values_high
    apply processSkills_values_high
    intro kv hkv
    cases hkv
  have hkey : sid ∈
      (analyze_skills_sectioned pr tax).detected_skills.map Prod.fst := by
    unfold analyze_skills_sectioned
    rcases htax with hm | hn
    · apply processSkills_keys_mono
      exact processSkills_detected_key pr.sections .must_have tax.must_have
        ([], [], []) sid info hm hcol
    · exact processSkills_detected_key pr.sections .nice_to_have
        tax.nice_to_have _ sid info hn hcol
  obtain ⟨d, hd⟩ := lookup_of_mem_keys _ sid hkey
  exact ⟨d, hd,
    lookup_value_prop (fun x => x.confidence = .high) _ hvalues sid d hd⟩

/-- Witness for C4: the resume text `"python"` as a single `Other`
section, against a taxonomy with must-have skill `python`. -/
theorem exact_match_skill_high_wit :
    ∃ d, (analyze_skills_sectioned ⟨"python", [⟨.other, "", "python", 0, 6⟩]⟩
        ⟨"", [("python", ⟨["python"], 1.0, "language"⟩)],
          []⟩).detected_skills.lookup "python" = some d ∧
      d.confidence = .high :=
  exact_match_skill_high ⟨"python", [⟨.other, "", "python", 0, 6⟩]⟩
    ⟨"", [("python", ⟨["python"], 1.0, "language"⟩)], []⟩
    "python" ⟨["python"], 1.0, "language"⟩
    (Or.inl (List.mem_cons_self _ _)) (by decide)
